import Mathlib

/-!
Shallow embedding of the BigWheels CPU-side geometry buffer builder
(`src/include/ppx/geometry.h`): `GeometryOptions` (the layout descriptor)
and `Geometry` (the builder, with its raw byte `Buffer`s).

Machine data is modelled at the byte level: a byte is a `Nat` (< 256 when
produced by serialization), a buffer's storage (`std::vector<char>`) is a
`List Nat`, and a 32-bit float value is modelled by its 32-bit pattern as a
`Nat`, serialized little-endian into 4 bytes. Method bodies that live in
`geometry.cpp` (not part of the visible unit) are modelled from the spec and
marked as such in their doc comments.
-/

set_option autoImplicit false

namespace ppx

/-- Little-endian byte serialization: `w` bytes of the value `n`
(the shallow embedding of `memcpy` of a `w`-byte machine value). -/
def bytesLE : Nat → Nat → List Nat
  | 0, _ => []
  | w + 1, n => n % 256 :: bytesLE w (n / 256)

/-- Little-endian byte decoding, inverse of `bytesLE` on in-range values. -/
def decodeLE : List Nat → Nat
  | [] => 0
  | b :: bs => b + 256 * decodeLE bs


/-- 32-bit float value, modelled by its bit pattern. -/
def float := Nat
/-- 2-component float vector (`ppx::float2`). -/
def float2 := Nat × Nat
/-- 3-component float vector (`ppx::float3`). -/
def float3 := Nat × Nat × Nat
/-- 4-component float vector (`ppx::float4`). -/
def float4 := Nat × Nat × Nat × Nat

instance : DecidableEq float2 := instDecidableEqProd
instance : DecidableEq float3 := instDecidableEqProd
instance : DecidableEq float4 := instDecidableEqProd

/-- In-memory representation of a `float2` (8 bytes). -/
def float2.bytes (v : float2) : List Nat := bytesLE 4 v.1 ++ bytesLE 4 v.2
/-- In-memory representation of a `float3` (12 bytes). -/
def float3.bytes (v : float3) : List Nat :=
  bytesLE 4 v.1 ++ bytesLE 4 v.2.1 ++ bytesLE 4 v.2.2
/-- In-memory representation of a `float4` (16 bytes). -/
def float4.bytes (v : float4) : List Nat :=
  bytesLE 4 v.1 ++ bytesLE 4 v.2.1 ++ bytesLE 4 v.2.2.1 ++ bytesLE 4 v.2.2.2


/-- `grfx::IndexType` (only the values the builder distinguishes). -/
inductive IndexType
  | undefined
  | uint16
  | uint32
  deriving DecidableEq, Repr

/-- Byte width of an index of the given type (`grfx::IndexTypeSize`). -/
def IndexType.size : IndexType → Nat
  | .undefined => 0
  | .uint16 => 2
  | .uint32 => 4

/-- `ppx::GeometryVertexAttributeLayout`. -/
inductive GeometryVertexAttributeLayout
  | interleaved
  | planar
  deriving DecidableEq, Repr

/-- `grfx::PrimitiveTopology` (triangle list plus enough other values to
express "not a triangle list"). -/
inductive PrimitiveTopology
  | triangleList
  | triangleStrip
  | pointList
  | lineList
  deriving DecidableEq, Repr

/-- The vertex semantics supported by the builder (`grfx::VertexSemantic`). -/
inductive VertexSemantic
  | position
  | normal
  | color
  | tangent
  | bitangent
  | texcoord
  deriving DecidableEq, Repr, Fintype

/-- The `grfx::Format` values the descriptor's `Add*` functions use. -/
inductive Format
  | r32g32Float
  | r32g32b32Float
  | r32g32b32a32Float
  deriving DecidableEq, Repr

/-- Byte size of one element of the given format. -/
def Format.size : Format → Nat
  | .r32g32Float => 8
  | .r32g32b32Float => 12
  | .r32g32b32a32Float => 16


/-- The default format the descriptor's `Add*` function declares for each
semantic (`GeometryOptions::AddPosition` .. `AddBitangent`, geometry.h
lines 91-96): the format whose byte size equals the size of the C++ value
the corresponding appender copies. -/
def naturalFormat : VertexSemantic → Format
  | .position => .r32g32b32Float
  | .normal => .r32g32b32Float
  | .color => .r32g32b32Float
  | .tangent => .r32g32b32a32Float
  | .bitangent => .r32g32b32Float
  | .texcoord => .r32g32Float

/-- A declared vertex attribute: semantic, on-the-wire format, byte offset
within its binding (`grfx::VertexAttribute`, as used by the descriptor). -/
structure VertexAttribute where
  semantic : VertexSemantic
  format : Format
  offset : Nat
  deriving DecidableEq, Repr

/-- A vertex binding: its declared attributes and its byte stride
(`grfx::VertexBinding`, as used by the descriptor). -/
structure VertexBinding where
  attributes : List VertexAttribute := []
  stride : Nat := 0
  deriving DecidableEq, Repr

instance : Inhabited VertexBinding := ⟨{}⟩

/-- `ppx::GeometryOptions` with the default member values of geometry.h
lines 51-57. `vertexBindings` is the used prefix of the C++ fixed array
(`vertexBindings[0..vertexBindingCount)`). -/
structure GeometryOptions where
  indexType : IndexType := .undefined
  vertexAttributeLayout : GeometryVertexAttributeLayout := .interleaved
  vertexBindingCount : Nat := 0
  vertexBindings : List VertexBinding := []
  primtiveTopology : PrimitiveTopology := .triangleList
  deriving DecidableEq, Repr

namespace GeometryOptions

/-- Binding 0 of the descriptor (the only binding interleaved mode uses). -/
def binding0 (o : GeometryOptions) : VertexBinding := o.vertexBindings.headD {}

/-- All declared semantics, in declaration order. -/
def declaredSemantics (o : GeometryOptions) : List VertexSemantic :=
  (o.vertexBindings.map VertexBinding.attributes).flatten.map VertexAttribute.semantic

/-- Modelled from the spec: `GeometryOptions::AddAttribute` appends a new
binding entry for `semantic` with the given `format`; in interleaved mode the
new attribute goes at the running end of binding 0's span (offset = previous
stride, stride grows by the format size), in planar mode it gets a dedicated
binding of its own whose stride is the format size. -/
def AddAttribute (o : GeometryOptions) (semantic : VertexSemantic) (format : Format) :
    GeometryOptions :=
  match o.vertexAttributeLayout with
  | .interleaved =>
    let b0 := o.binding0
    let b0' : VertexBinding :=
      { attributes := b0.attributes ++ [⟨semantic, format, b0.stride⟩]
        stride := b0.stride + format.size }
    { o with vertexBindings := [b0'], vertexBindingCount := 1 }
  | .planar =>
    { o with
      vertexBindings := o.vertexBindings ++ [⟨[⟨semantic, format, 0⟩], format.size⟩]
      vertexBindingCount := o.vertexBindingCount + 1 }

/-- `GeometryOptions::AddPosition` (default format `FORMAT_R32G32B32_FLOAT`). -/
def AddPosition (o : GeometryOptions) (format : Format := .r32g32b32Float) : GeometryOptions :=
  o.AddAttribute .position format

/-- `GeometryOptions::AddNormal`. -/
def AddNormal (o : GeometryOptions) (format : Format := .r32g32b32Float) : GeometryOptions :=
  o.AddAttribute .normal format

/-- `GeometryOptions::AddColor`. -/
def AddColor (o : GeometryOptions) (format : Format := .r32g32b32Float) : GeometryOptions :=
  o.AddAttribute .color format

/-- `GeometryOptions::AddTexCoord` (default format `FORMAT_R32G32_FLOAT`). -/
def AddTexCoord (o : GeometryOptions) (format : Format := .r32g32Float) : GeometryOptions :=
  o.AddAttribute .texcoord format

/-- `GeometryOptions::AddTangent` (default format `FORMAT_R32G32B32A32_FLOAT`). -/
def AddTangent (o : GeometryOptions) (format : Format := .r32g32b32a32Float) : GeometryOptions :=
  o.AddAttribute .tangent format

/-- `GeometryOptions::AddBitangent`. -/
def AddBitangent (o : GeometryOptions) (format : Format := .r32g32b32Float) : GeometryOptions :=
  o.AddAttribute .bitangent format

/-- `GeometryOptions::IndexType`. -/
def IndexType (o : GeometryOptions) (indexType_ : ppx.IndexType) : GeometryOptions :=
  { o with indexType := indexType_ }

/-- `GeometryOptions::IndexTypeU16`. -/
def IndexTypeU16 (o : GeometryOptions) : GeometryOptions := o.IndexType .uint16

/-- `GeometryOptions::IndexTypeU32`. -/
def IndexTypeU32 (o : GeometryOptions) : GeometryOptions := o.IndexType .uint32

end GeometryOptions

/-- Per-vertex attribute bundle of a triangle mesh (`ppx::TriMeshVertexData`):
position, color, normal, texture coordinate, tangent, bitangent. -/
structure TriMeshVertexData where
  position : float3
  color : float3
  normal : float3
  texCoord : float2
  tangent : float4
  bitangent : float3
  deriving DecidableEq

/-- Per-vertex attribute bundle of a wire mesh (`ppx::WireMeshVertexData`):
position and color only. -/
structure WireMeshVertexData where
  position : float3
  color : float3
  deriving DecidableEq

/-- The bytes the builder copies for one semantic of a triangle-mesh vertex
bundle: the in-memory representation of the corresponding C++ field. -/
def TriMeshVertexData.semanticBytes (v : TriMeshVertexData) : VertexSemantic → List Nat
  | .position => v.position.bytes
  | .normal => v.normal.bytes
  | .color => v.color.bytes
  | .tangent => v.tangent.bytes
  | .bitangent => v.bitangent.bytes
  | .texcoord => v.texCoord.bytes


/-- `Geometry::BufferType`. -/
inductive BufferType
  | vertex
  | index
  deriving DecidableEq, Repr

/-- `Geometry::Buffer`: a raw byte buffer with a type tag and an element
byte size. `mData` models the `std::vector<char>` storage. -/
structure Buffer where
  mType : BufferType := .vertex
  mElementSize : Nat := 0
  mData : List Nat := []
  deriving DecidableEq, Repr

instance : Inhabited Buffer := ⟨{}⟩

namespace Buffer

/-- `Buffer::GetType`. -/
def GetType (b : Buffer) : BufferType := b.mType

/-- `Buffer::GetElementSize`. -/
def GetElementSize (b : Buffer) : Nat := b.mElementSize

/-- `Buffer::GetSize`: the current raw content length in bytes. -/
def GetSize (b : Buffer) : Nat := b.mData.length

/-- `Buffer::GetElementCount`: data size divided by element size
(geometry.h lines 116-123). -/
def GetElementCount (b : Buffer) : Nat := b.GetSize / b.mElementSize

/-- `Buffer::Append<T>`: appends the `sizeof(T)` bytes of the value's
in-memory representation at the current end of the data
(geometry.h lines 154-167). The value is shallowly embedded as its byte
list `bytes`, with `bytes.length` standing for `sizeof(T)`. -/
def Append (b : Buffer) (bytes : List Nat) : Buffer :=
  { b with mData := b.mData ++ bytes }


end Buffer

/-- Error values a failing `Geometry::Create` reports (the relevant
`ppx::Result` error codes). -/
inductive CreateError
  | invalidTopology
  | invalidBindingConfig
  deriving DecidableEq, Repr

/-- `ppx::Geometry`: the builder state. The six `m*BufferIndex` fields model
the source's sentinel-valued per-semantic buffer indices
(`PPX_VALUE_IGNORED` becomes `none`). -/
structure Geometry where
  mCreateInfo : GeometryOptions := {}
  mIndexBuffer : Buffer := {}
  mVertexBuffers : List Buffer := []
  mPositionBufferIndex : Option Nat := none
  mNormaBufferIndex : Option Nat := none
  mColorBufferIndex : Option Nat := none
  mTexCoordBufferIndex : Option Nat := none
  mTangentBufferIndex : Option Nat := none
  mBitangentBufferIndex : Option Nat := none
  deriving DecidableEq

/-- Modelled from the spec: the buffer index the constructor records for a
semantic — in interleaved mode every declared semantic lives in buffer 0; in
planar mode a semantic's buffer is the binding slot declaring it. -/
def GeometryOptions.semanticSlot (o : GeometryOptions) (s : VertexSemantic) : Option Nat :=
  match o.vertexAttributeLayout with
  | .interleaved =>
    if s ∈ o.binding0.attributes.map VertexAttribute.semantic then some 0 else none
  | .planar =>
    o.vertexBindings.findIdx? (fun b => b.attributes.any (fun a => decide (a.semantic = s)))

/-- Modelled from the spec: the configuration checks `Geometry::Create`
performs — the topology must be a triangle list, declared semantics must be
distinct, and in planar mode every used binding carries exactly one
attribute. -/
def GeometryOptions.consistentBindings (o : GeometryOptions) : Prop :=
  o.declaredSemantics.Nodup ∧
  (o.vertexAttributeLayout = .planar → ∀ b ∈ o.vertexBindings, b.attributes.length = 1)

instance (o : GeometryOptions) : Decidable o.consistentBindings := by
  unfold GeometryOptions.consistentBindings; infer_instance

namespace Geometry

/-- The vertex buffer at slot `i`. -/
def bufferAt (g : Geometry) (i : Nat) : Buffer := g.mVertexBuffers.getD i {}

/-- Binding 0 of the frozen descriptor. -/
def binding0 (g : Geometry) : VertexBinding := g.mCreateInfo.binding0

/-- The per-semantic buffer-index lookup (source fields
`mPositionBufferIndex` .. `mBitangentBufferIndex`). -/
def semanticBufferIndex (g : Geometry) : VertexSemantic → Option Nat
  | .position => g.mPositionBufferIndex
  | .normal => g.mNormaBufferIndex
  | .color => g.mColorBufferIndex
  | .tangent => g.mTangentBufferIndex
  | .bitangent => g.mBitangentBufferIndex
  | .texcoord => g.mTexCoordBufferIndex

/-- Modelled from the spec: the successfully constructed builder — an empty
index buffer sized to the index width, one empty vertex buffer sized to
binding 0's stride (interleaved) or one per binding sized to that binding's
stride (planar), and the recorded semantic-to-buffer-index mapping. -/
def initFromOptions (ci : GeometryOptions) : Geometry :=
  { mCreateInfo := ci
    mIndexBuffer := { mType := .index, mElementSize := ci.indexType.size, mData := [] }
    mVertexBuffers :=
      match ci.vertexAttributeLayout with
      | .interleaved => [{ mType := .vertex, mElementSize := ci.binding0.stride, mData := [] }]
      | .planar =>
        ci.vertexBindings.map fun b => { mType := .vertex, mElementSize := b.stride, mData := [] }
    mPositionBufferIndex := GeometryOptions.semanticSlot ci .position
    mNormaBufferIndex := GeometryOptions.semanticSlot ci .normal
    mColorBufferIndex := GeometryOptions.semanticSlot ci .color
    mTexCoordBufferIndex := GeometryOptions.semanticSlot ci .texcoord
    mTangentBufferIndex := GeometryOptions.semanticSlot ci .tangent
    mBitangentBufferIndex := GeometryOptions.semanticSlot ci .bitangent }

/-- Modelled from the spec: `Geometry::Create(createInfo, pGeometry)` —
reports an error result on an unsupported topology or an inconsistent
binding configuration, otherwise yields the freshly initialized builder.
A failure yields no geometry at all, so the caller's object is untouched. -/
def Create (createInfo : GeometryOptions) : Except CreateError Geometry :=
  if createInfo.primtiveTopology = .triangleList then
    if createInfo.consistentBindings then
      .ok (initFromOptions createInfo)
    else
      .error .invalidBindingConfig
  else
    .error .invalidTopology

/-- Modelled from the spec: appending one index value — a no-op when the
index type is `UNDEFINED`, otherwise the value is cast to the index width
(`uint16_t` or `uint32_t`) and its bytes appended to the index buffer. -/
def appendIndex (g : Geometry) (vtx : Nat) : Geometry :=
  match g.mCreateInfo.indexType with
  | .undefined => g
  | .uint16 => { g with mIndexBuffer := g.mIndexBuffer.Append (bytesLE 2 (vtx % 2 ^ 16)) }
  | .uint32 => { g with mIndexBuffer := g.mIndexBuffer.Append (bytesLE 4 (vtx % 2 ^ 32)) }

/-- Modelled from the spec: `Geometry::AppendIndicesTriangle` appends the
three vertex indices in argument order (no-op when the index type is
`UNDEFINED`). -/
def AppendIndicesTriangle (g : Geometry) (vtx0 vtx1 vtx2 : Nat) : Geometry :=
  ((g.appendIndex vtx0).appendIndex vtx1).appendIndex vtx2

/-- Modelled from the spec: `Geometry::AppendIndicesEdge` appends the two
vertex indices in argument order (no-op when the index type is
`UNDEFINED`). -/
def AppendIndicesEdge (g : Geometry) (vtx0 vtx1 : Nat) : Geometry :=
  (g.appendIndex vtx0).appendIndex vtx1

/-- Modelled from the spec: core of the planar single-attribute appenders —
append `bytes` to the vertex buffer at slot `oi`; a no-op unless the layout
is planar and the semantic has a recorded buffer slot. -/
def appendAttrAt (g : Geometry) (oi : Option Nat) (bytes : List Nat) : Geometry :=
  if g.mCreateInfo.vertexAttributeLayout = .planar then
    match oi with
    | some i =>
      { g with mVertexBuffers := g.mVertexBuffers.set i ((g.bufferAt i).Append bytes) }
    | none => g
  else
    g

/-- Modelled from the spec: `Geometry::AppendPosition` — planar-only append
of the position bytes, returning the resulting zero-based element index of
the position buffer (0 when the call is a no-op; that value is not part of
the contract). -/
def AppendPosition (g : Geometry) (value : float3) : Geometry × Nat :=
  let g' := g.appendAttrAt g.mPositionBufferIndex value.bytes
  (g', match g'.mPositionBufferIndex with
       | some i => (g'.bufferAt i).GetElementCount - 1
       | none => 0)

/-- Modelled from the spec: `Geometry::AppendNormal` (planar-only,
absent-semantic no-op). -/
def AppendNormal (g : Geometry) (value : float3) : Geometry :=
  g.appendAttrAt g.mNormaBufferIndex value.bytes

/-- Modelled from the spec: `Geometry::AppendColor` (planar-only,
absent-semantic no-op). -/
def AppendColor (g : Geometry) (value : float3) : Geometry :=
  g.appendAttrAt g.mColorBufferIndex value.bytes

/-- Modelled from the spec: `Geometry::AppendTexCoord` (planar-only,
absent-semantic no-op). -/
def AppendTexCoord (g : Geometry) (value : float2) : Geometry :=
  g.appendAttrAt g.mTexCoordBufferIndex value.bytes

/-- Modelled from the spec: `Geometry::AppendTangent` (planar-only,
absent-semantic no-op). -/
def AppendTangent (g : Geometry) (value : float4) : Geometry :=
  g.appendAttrAt g.mTangentBufferIndex value.bytes

/-- Modelled from the spec: `Geometry::AppendBitangent` (planar-only,
absent-semantic no-op). -/
def AppendBitangent (g : Geometry) (value : float3) : Geometry :=
  g.appendAttrAt g.mBitangentBufferIndex value.bytes

/-- Modelled from the spec: `Geometry::GetVertexCount` — the element count
of the single interleaved buffer, or of the position-bearing buffer in
planar mode. -/
def GetVertexCount (g : Geometry) : Nat :=
  match g.mCreateInfo.vertexAttributeLayout with
  | .interleaved => (g.bufferAt 0).GetElementCount
  | .planar =>
    match g.mPositionBufferIndex with
    | some i => (g.bufferAt i).GetElementCount
    | none => 0

/-- `Geometry::GetIndexCount`: element count of the index buffer. -/
def GetIndexCount (g : Geometry) : Nat := g.mIndexBuffer.GetElementCount

/-- Modelled from the spec: `Geometry::AppendVertexInterleaved` — the bytes
of each declared attribute, in declaration order, are concatenated into one
contiguous element appended to the single vertex buffer; returns the new
vertex's zero-based index. -/
def AppendVertexInterleaved (g : Geometry) (vtx : TriMeshVertexData) : Geometry × Nat :=
  let bytes := (g.binding0.attributes.map fun a => vtx.semanticBytes a.semantic).flatten
  let g' := { g with mVertexBuffers := g.mVertexBuffers.set 0 ((g.bufferAt 0).Append bytes) }
  (g', g'.GetVertexCount - 1)

/-- Modelled from the spec: `Geometry::AppendVertexData(TriMeshVertexData)` —
interleaved mode writes one concatenated element, planar mode routes every
declared attribute of the bundle through its single-attribute appender;
returns the new vertex's zero-based index. -/
def AppendVertexData (g : Geometry) (vtx : TriMeshVertexData) : Geometry × Nat :=
  match g.mCreateInfo.vertexAttributeLayout with
  | .interleaved => g.AppendVertexInterleaved vtx
  | .planar =>
    let (g1, n) := g.AppendPosition vtx.position
    let g2 := g1.AppendNormal vtx.normal
    let g3 := g2.AppendColor vtx.color
    let g4 := g3.AppendTexCoord vtx.texCoord
    let g5 := g4.AppendTangent vtx.tangent
    let g6 := g5.AppendBitangent vtx.bitangent
    (g6, n)

/-- A sequence of `AppendVertexData` calls, collecting the returned vertex
indices in call order. -/
def AppendVertexDataList (g : Geometry) : List TriMeshVertexData → Geometry × List Nat
  | [] => (g, [])
  | v :: vs =>
    let (g', n) := g.AppendVertexData v
    let (g'', ns) := g'.AppendVertexDataList vs
    (g'', n :: ns)

end Geometry

/-- Modelled from the spec: a source triangle mesh (`ppx::TriMesh`) as the
builder consumes it — which optional attributes are present, the per-vertex
attribute bundles, and the triangle index triples. Position is always
present. -/
structure TriMesh where
  hasColors : Bool := false
  hasNormals : Bool := false
  hasTangents : Bool := false
  hasBitangents : Bool := false
  hasTexCoords : Bool := false
  vertices : List TriMeshVertexData := []
  triangles : List (Nat × Nat × Nat) := []
  deriving DecidableEq

/-- Modelled from the spec: the layout descriptor `Geometry::Create(mesh,
pGeometry)` synthesizes from the mesh alone — exactly the attributes present
in the mesh, in the canonical order position, normal, color, tangent,
bitangent, texcoord, in interleaved mode, with a 16-bit index when the
vertex count fits in 16 bits and a 32-bit index otherwise. -/
def TriMesh.deriveOptions (m : TriMesh) : GeometryOptions :=
  let o : GeometryOptions :=
    { indexType := if m.vertices.length ≤ 65536 then .uint16 else .uint32 }
  let o := o.AddPosition
  let o := if m.hasNormals then o.AddNormal else o
  let o := if m.hasColors then o.AddColor else o
  let o := if m.hasTangents then o.AddTangent else o
  let o := if m.hasBitangents then o.AddBitangent else o
  let o := if m.hasTexCoords then o.AddTexCoord else o
  o

namespace Geometry

/-- Modelled from the spec: `Geometry::Create(mesh, pGeometry)` — construct
from the descriptor synthesized from the mesh, then populate the builder
with the mesh's vertex bundles and triangle indices. -/
def CreateFromTriMesh (mesh : TriMesh) : Except CreateError Geometry :=
  match Geometry.Create mesh.deriveOptions with
  | .error e => .error e
  | .ok g =>
    let g := (g.AppendVertexDataList mesh.vertices).1
    let g := mesh.triangles.foldl (fun g t => g.AppendIndicesTriangle t.1 t.2.1 t.2.2) g
    .ok g

end Geometry

/-- `optAll o p` holds when the optional value, if present, satisfies `p`. -/
def optAll (o : Option Nat) (p : Nat → Prop) : Prop :=
  match o with
  | none => True
  | some i => p i

instance instDecidableOptAll (o : Option Nat) (p : Nat → Prop) [h : ∀ i, Decidable (p i)] :
    Decidable (optAll o p) :=
  match o with
  | none => isTrue trivial
  | some i => h i

namespace Geometry

/-- Shape invariant of an interleaved builder: a single vertex buffer whose
element size is the total byte size of the declared attributes, each
declared with its natural format (the format whose size matches the C++
value the appender copies). Established by `Create` and preserved by every
append. -/
def InterleavedWF (g : Geometry) : Prop :=
  g.mCreateInfo.vertexAttributeLayout = .interleaved ∧
  g.mVertexBuffers.length = 1 ∧
  (g.bufferAt 0).mElementSize = (g.binding0.attributes.map fun a => a.format.size).sum ∧
  ∀ a ∈ g.binding0.attributes, a.format = naturalFormat a.semantic

/-- Shape invariant of a planar builder: every recorded semantic buffer slot
is in range with the semantic's natural element size, and distinct semantics
map to distinct slots. Established by `Create` and preserved by every
append. -/
def PlanarWF (g : Geometry) : Prop :=
  g.mCreateInfo.vertexAttributeLayout = .planar ∧
  (∀ s : VertexSemantic, optAll (g.semanticBufferIndex s) fun i =>
    i < g.mVertexBuffers.length ∧ (g.bufferAt i).mElementSize = (naturalFormat s).size) ∧
  (∀ s t : VertexSemantic, s ≠ t → optAll (g.semanticBufferIndex s) fun i =>
    optAll (g.semanticBufferIndex t) fun j => i ≠ j)

/-- Shape invariant sufficient for `AppendVertexData` to maintain a vertex
stream: the mode's invariant, plus a nonempty interleaved element (resp. a
declared position attribute in planar mode). -/
def StreamWF (g : Geometry) : Prop :=
  (g.mCreateInfo.vertexAttributeLayout = .interleaved →
    g.InterleavedWF ∧ g.binding0.attributes ≠ []) ∧
  (g.mCreateInfo.vertexAttributeLayout = .planar →
    g.PlanarWF ∧ g.mPositionBufferIndex ≠ none)

instance (g : Geometry) : Decidable g.InterleavedWF := by
  unfold InterleavedWF; infer_instance

instance (g : Geometry) : Decidable g.PlanarWF := by
  unfold PlanarWF; infer_instance

instance (g : Geometry) : Decidable g.StreamWF := by
  unfold StreamWF; infer_instance

end Geometry

namespace Geometry

/-- The interleaved element bytes of a vertex bundle: each declared
attribute's bytes, concatenated in declaration order. -/
def interleavedBytes (attrs : List VertexAttribute) (vtx : TriMeshVertexData) : List Nat :=
  (attrs.map fun a => vtx.semanticBytes a.semantic).flatten

/-- The index-buffer fold `CreateFromTriMesh` performs over the mesh's
triangles. -/
def triangleFold (g : Geometry) (ts : List (Nat × Nat × Nat)) : Geometry :=
  ts.foldl (fun g t => g.AppendIndicesTriangle t.1 t.2.1 t.2.2) g

end Geometry

/-- One index-append call: a triangle (`AppendIndicesTriangle`) or an edge
(`AppendIndicesEdge`). -/
inductive IndexOp
  | tri (v0 v1 v2 : Nat)
  | edge (v0 v1 : Nat)
  deriving DecidableEq

namespace Geometry

/-- Apply one index-append call. -/
def applyIndexOp (g : Geometry) : IndexOp → Geometry
  | .tri a b c => g.AppendIndicesTriangle a b c
  | .edge a b => g.AppendIndicesEdge a b

/-- Apply a sequence of index-append calls. -/
def applyIndexOps (g : Geometry) (ops : List IndexOp) : Geometry :=
  ops.foldl applyIndexOp g

end Geometry

/-- A sample vertex bundle with distinct component bit patterns. -/
def vtxA : TriMeshVertexData :=
  { position := (1, 2, 3), color := (4, 5, 6), normal := (7, 8, 9)
    texCoord := (10, 11), tangent := (12, 13, 14, 15), bitangent := (16, 17, 18) }

/-- Interleaved descriptor with a 16-bit index, position and texcoord. -/
def optionsI : GeometryOptions := (({} : GeometryOptions).IndexTypeU16).AddPosition.AddTexCoord

/-- Builder constructed from `optionsI`. -/
def geoI : Geometry := Geometry.initFromOptions optionsI

/-- Planar descriptor with a 16-bit index, position and texcoord. -/
def optionsP : GeometryOptions :=
  (({ vertexAttributeLayout := .planar } : GeometryOptions).IndexTypeU16).AddPosition.AddTexCoord

/-- Builder constructed from `optionsP`. -/
def geoP : Geometry := Geometry.initFromOptions optionsP

/-- Builder with no index data (`indexType` left `UNDEFINED`). -/
def geoU : Geometry := Geometry.initFromOptions (({} : GeometryOptions).AddPosition)

/-- Well-formedness of an interleaved descriptor as the fluent `Add*` calls
build it: interleaved layout, binding 0's stride equal to the total declared
attribute size, every attribute at its natural format. -/
def GeometryOptions.InterleavedGood (o : GeometryOptions) : Prop :=
  o.vertexAttributeLayout = .interleaved ∧
  o.binding0.stride = (o.binding0.attributes.map fun a => a.format.size).sum ∧
  ∀ a ∈ o.binding0.attributes, a.format = naturalFormat a.semantic

@[simp] theorem length_bytesLE (w n : Nat) : (bytesLE w n).length = w := by
  induction w generalizing n with
  | zero => rfl
  | succ w ih => simp [bytesLE, ih]

theorem decodeLE_bytesLE (w n : Nat) (h : n < 256 ^ w) :
    decodeLE (bytesLE w n) = n := by
  induction w generalizing n with
  | zero => simp [pow_zero] at h; simp [h, bytesLE, decodeLE]
  | succ w ih =>
    have hdiv : n / 256 < 256 ^ w := by
      rw [Nat.div_lt_iff_lt_mul (by norm_num : 0 < 256)]
      calc n < 256 ^ (w + 1) := h
        _ = 256 ^ w * 256 := by ring
    simp [bytesLE, decodeLE, ih (n / 256) hdiv]
    omega

@[simp] theorem length_bytes_float2 (v : float2) : v.bytes.length = 8 := by
  simp [float2.bytes]
@[simp] theorem length_bytes_float3 (v : float3) : v.bytes.length = 12 := by
  simp [float3.bytes]
@[simp] theorem length_bytes_float4 (v : float4) : v.bytes.length = 16 := by
  simp [float4.bytes]

theorem Format.size_pos (f : Format) : 0 < f.size := by cases f <;> simp [Format.size]

@[simp] theorem TriMeshVertexData.length_semanticBytes (v : TriMeshVertexData)
    (s : VertexSemantic) : (v.semanticBytes s).length = (naturalFormat s).size := by
  cases s <;> simp [semanticBytes, naturalFormat, Format.size]

@[simp] theorem Buffer.mType_Append (b : Buffer) (bytes : List Nat) :
    (b.Append bytes).mType = b.mType := rfl

@[simp] theorem Buffer.mElementSize_Append (b : Buffer) (bytes : List Nat) :
    (b.Append bytes).mElementSize = b.mElementSize := rfl

@[simp] theorem Buffer.mData_Append (b : Buffer) (bytes : List Nat) :
    (b.Append bytes).mData = b.mData ++ bytes := rfl

theorem listGetD_set_self {α : Type} (l : List α) (i : Nat) (x d : α) (h : i < l.length) :
    (l.set i x).getD i d = x := by
  simp [List.getD_eq_getElem?_getD, List.getElem?_set_self h]

theorem listGetD_set_ne {α : Type} (l : List α) (i j : Nat) (x d : α) (h : i ≠ j) :
    (l.set i x).getD j d = l.getD j d := by
  simp [List.getD_eq_getElem?_getD, List.getElem?_set_ne h]

namespace Buffer

/-- Appending an element-sized chunk of bytes to a buffer raises its element
count by exactly one. -/
theorem GetElementCount_Append (b : Buffer) (bytes : List Nat)
    (hsize : b.mElementSize = bytes.length) (hpos : 0 < bytes.length) :
    (b.Append bytes).GetElementCount = b.GetElementCount + 1 := by
  simp only [GetElementCount, GetSize, Append, List.length_append, hsize]
  exact Nat.add_div_right _ hpos

end Buffer

namespace Geometry

@[simp] theorem mCreateInfo_appendAttrAt (g : Geometry) (oi : Option Nat) (bytes : List Nat) :
    (g.appendAttrAt oi bytes).mCreateInfo = g.mCreateInfo := by
  unfold appendAttrAt; split
  · cases oi <;> rfl
  · rfl

@[simp] theorem mIndexBuffer_appendAttrAt (g : Geometry) (oi : Option Nat) (bytes : List Nat) :
    (g.appendAttrAt oi bytes).mIndexBuffer = g.mIndexBuffer := by
  unfold appendAttrAt; split
  · cases oi <;> rfl
  · rfl

@[simp] theorem mPositionBufferIndex_appendAttrAt (g : Geometry) (oi : Option Nat)
    (bytes : List Nat) : (g.appendAttrAt oi bytes).mPositionBufferIndex =
    g.mPositionBufferIndex := by
  unfold appendAttrAt; split
  · cases oi <;> rfl
  · rfl

@[simp] theorem mNormaBufferIndex_appendAttrAt (g : Geometry) (oi : Option Nat)
    (bytes : List Nat) : (g.appendAttrAt oi bytes).mNormaBufferIndex =
    g.mNormaBufferIndex := by
  unfold appendAttrAt; split
  · cases oi <;> rfl
  · rfl

@[simp] theorem mColorBufferIndex_appendAttrAt (g : Geometry) (oi : Option Nat)
    (bytes : List Nat) : (g.appendAttrAt oi bytes).mColorBufferIndex =
    g.mColorBufferIndex := by
  unfold appendAttrAt; split
  · cases oi <;> rfl
  · rfl

@[simp] theorem mTexCoordBufferIndex_appendAttrAt (g : Geometry) (oi : Option Nat)
    (bytes : List Nat) : (g.appendAttrAt oi bytes).mTexCoordBufferIndex =
    g.mTexCoordBufferIndex := by
  unfold appendAttrAt; split
  · cases oi <;> rfl
  · rfl

@[simp] theorem mTangentBufferIndex_appendAttrAt (g : Geometry) (oi : Option Nat)
    (bytes : List Nat) : (g.appendAttrAt oi bytes).mTangentBufferIndex =
    g.mTangentBufferIndex := by
  unfold appendAttrAt; split
  · cases oi <;> rfl
  · rfl

@[simp] theorem mBitangentBufferIndex_appendAttrAt (g : Geometry) (oi : Option Nat)
    (bytes : List Nat) : (g.appendAttrAt oi bytes).mBitangentBufferIndex =
    g.mBitangentBufferIndex := by
  unfold appendAttrAt; split
  · cases oi <;> rfl
  · rfl

@[simp] theorem semanticBufferIndex_appendAttrAt (g : Geometry) (oi : Option Nat)
    (bytes : List Nat) (s : VertexSemantic) :
    (g.appendAttrAt oi bytes).semanticBufferIndex s = g.semanticBufferIndex s := by
  cases s <;> simp [semanticBufferIndex]

@[simp] theorem length_mVertexBuffers_appendAttrAt (g : Geometry) (oi : Option Nat)
    (bytes : List Nat) :
    (g.appendAttrAt oi bytes).mVertexBuffers.length = g.mVertexBuffers.length := by
  unfold appendAttrAt; split
  · cases oi with
    | none => rfl
    | some i => simp
  · rfl

/-- `appendAttrAt` leaves every vertex buffer other than its target slot
untouched. -/
theorem bufferAt_appendAttrAt_ne (g : Geometry) (oi : Option Nat) (bytes : List Nat)
    (j : Nat) (h : oi ≠ some j) : (g.appendAttrAt oi bytes).bufferAt j = g.bufferAt j := by
  unfold appendAttrAt; split
  · cases oi with
    | none => rfl
    | some i =>
      have hij : i ≠ j := fun he => h (by rw [he])
      simp [bufferAt, List.getElem?_set_ne hij]
  · rfl

/-- In planar mode, `appendAttrAt` at an in-range slot appends exactly its
bytes to that slot's buffer. -/
theorem bufferAt_appendAttrAt_self (g : Geometry) (i : Nat) (bytes : List Nat)
    (hp : g.mCreateInfo.vertexAttributeLayout = .planar)
    (hi : i < g.mVertexBuffers.length) :
    (g.appendAttrAt (some i) bytes).bufferAt i = (g.bufferAt i).Append bytes := by
  unfold appendAttrAt
  rw [if_pos hp]
  simp [bufferAt, List.getElem?_set_self hi]


/-- With every attribute declared at its natural format, the concatenated
element occupies exactly the declared strides: no padding beyond each
format's natural size. -/
theorem length_interleavedBytes (attrs : List VertexAttribute) (vtx : TriMeshVertexData)
    (hnat : ∀ a ∈ attrs, a.format = naturalFormat a.semantic) :
    (interleavedBytes attrs vtx).length = (attrs.map fun a => a.format.size).sum := by
  induction attrs with
  | nil => rfl
  | cons a l ih =>
    simp only [interleavedBytes, List.map_cons, List.flatten_cons, List.length_append,
      List.sum_cons]
    have ih' := ih (fun x hx => hnat x (List.mem_cons_of_mem _ hx))
    simp only [interleavedBytes] at ih'
    rw [ih', hnat a (List.mem_cons_self _ _), TriMeshVertexData.length_semanticBytes]

theorem sum_format_sizes_pos (attrs : List VertexAttribute) (h : attrs ≠ []) :
    0 < (attrs.map fun a => a.format.size).sum := by
  cases attrs with
  | nil => exact absurd rfl h
  | cons a l =>
    simp only [List.map_cons, List.sum_cons]
    have := Format.size_pos a.format
    omega

@[simp] theorem mCreateInfo_AppendVertexInterleaved (g : Geometry) (vtx : TriMeshVertexData) :
    (g.AppendVertexInterleaved vtx).1.mCreateInfo = g.mCreateInfo := rfl

@[simp] theorem mIndexBuffer_AppendVertexInterleaved (g : Geometry) (vtx : TriMeshVertexData) :
    (g.AppendVertexInterleaved vtx).1.mIndexBuffer = g.mIndexBuffer := rfl

@[simp] theorem length_mVertexBuffers_AppendVertexInterleaved (g : Geometry)
    (vtx : TriMeshVertexData) :
    (g.AppendVertexInterleaved vtx).1.mVertexBuffers.length = g.mVertexBuffers.length := by
  simp [AppendVertexInterleaved]

/-- The interleaved whole-vertex append targets buffer 0 with one
concatenated element. -/
theorem bufferAt_AppendVertexInterleaved (g : Geometry) (vtx : TriMeshVertexData)
    (h : 0 < g.mVertexBuffers.length) :
    (g.AppendVertexInterleaved vtx).1.bufferAt 0 =
      (g.bufferAt 0).Append (interleavedBytes g.binding0.attributes vtx) := by
  simp [AppendVertexInterleaved, bufferAt, List.getElem?_set_self h, interleavedBytes]

/-- `appendAttrAt` never changes a buffer's element size. -/
theorem mElementSize_bufferAt_appendAttrAt (g : Geometry) (oi : Option Nat)
    (bytes : List Nat) (j : Nat) :
    ((g.appendAttrAt oi bytes).bufferAt j).mElementSize = (g.bufferAt j).mElementSize := by
  unfold appendAttrAt; split
  · cases oi with
    | none => rfl
    | some i =>
      rcases eq_or_ne i j with he | hne
      · subst he
        by_cases hi : i < g.mVertexBuffers.length
        · simp [bufferAt, List.getElem?_set_self hi]
        · have hle : g.mVertexBuffers.length ≤ i := Nat.le_of_not_lt hi
          simp [bufferAt, List.set_eq_of_length_le hle]
      · simp [bufferAt, List.getElem?_set_ne hne]
  · rfl

theorem bufferAt_AppendVertexData_planar (g : Geometry) (vtx : TriMeshVertexData)
    (s : VertexSemantic) (i : Nat) (hwf : g.PlanarWF)
    (hs : g.semanticBufferIndex s = some i) :
    (g.AppendVertexData vtx).1.bufferAt i = (g.bufferAt i).Append (vtx.semanticBytes s) := by
  obtain ⟨hp, hrange, hinj⟩ := hwf
  have hr := hrange s
  rw [hs] at hr
  simp only [optAll] at hr
  obtain ⟨hi, _⟩ := hr
  have hne : ∀ t : VertexSemantic, t ≠ s → g.semanticBufferIndex t ≠ some i := by
    intro t ht hcontra
    have h2 := hinj s t (fun he => ht he.symm)
    rw [hs, hcontra] at h2
    simp only [optAll] at h2
    exact h2 rfl
  simp only [AppendVertexData, hp, AppendPosition, AppendNormal, AppendColor,
    AppendTexCoord, AppendTangent, AppendBitangent, mPositionBufferIndex_appendAttrAt,
    mNormaBufferIndex_appendAttrAt, mColorBufferIndex_appendAttrAt,
    mTexCoordBufferIndex_appendAttrAt, mTangentBufferIndex_appendAttrAt,
    mBitangentBufferIndex_appendAttrAt]
  cases s with
  | position =>
    simp only [semanticBufferIndex] at hs
    have hN : g.mNormaBufferIndex ≠ some i := hne .normal (by decide)
    have hC : g.mColorBufferIndex ≠ some i := hne .color (by decide)
    have hX : g.mTexCoordBufferIndex ≠ some i := hne .texcoord (by decide)
    have hT : g.mTangentBufferIndex ≠ some i := hne .tangent (by decide)
    have hB : g.mBitangentBufferIndex ≠ some i := hne .bitangent (by decide)
    rw [bufferAt_appendAttrAt_ne _ _ _ _ hB, bufferAt_appendAttrAt_ne _ _ _ _ hT,
      bufferAt_appendAttrAt_ne _ _ _ _ hX, bufferAt_appendAttrAt_ne _ _ _ _ hC,
      bufferAt_appendAttrAt_ne _ _ _ _ hN, hs, bufferAt_appendAttrAt_self g i _ hp hi]
    rfl
  | normal =>
    simp only [semanticBufferIndex] at hs
    have hP : g.mPositionBufferIndex ≠ some i := hne .position (by decide)
    have hC : g.mColorBufferIndex ≠ some i := hne .color (by decide)
    have hX : g.mTexCoordBufferIndex ≠ some i := hne .texcoord (by decide)
    have hT : g.mTangentBufferIndex ≠ some i := hne .tangent (by decide)
    have hB : g.mBitangentBufferIndex ≠ some i := hne .bitangent (by decide)
    rw [bufferAt_appendAttrAt_ne _ _ _ _ hB, bufferAt_appendAttrAt_ne _ _ _ _ hT,
      bufferAt_appendAttrAt_ne _ _ _ _ hX, bufferAt_appendAttrAt_ne _ _ _ _ hC, hs,
      bufferAt_appendAttrAt_self _ i _ (by simp [hp]) (by simpa using hi),
      bufferAt_appendAttrAt_ne _ _ _ _ hP]
    rfl
  | color =>
    simp only [semanticBufferIndex] at hs
    have hP : g.mPositionBufferIndex ≠ some i := hne .position (by decide)
    have hN : g.mNormaBufferIndex ≠ some i := hne .normal (by decide)
    have hX : g.mTexCoordBufferIndex ≠ some i := hne .texcoord (by decide)
    have hT : g.mTangentBufferIndex ≠ some i := hne .tangent (by decide)
    have hB : g.mBitangentBufferIndex ≠ some i := hne .bitangent (by decide)
    rw [bufferAt_appendAttrAt_ne _ _ _ _ hB, bufferAt_appendAttrAt_ne _ _ _ _ hT,
      bufferAt_appendAttrAt_ne _ _ _ _ hX, hs,
      bufferAt_appendAttrAt_self _ i _ (by simp [hp]) (by simpa using hi),
      bufferAt_appendAttrAt_ne _ _ _ _ hN, bufferAt_appendAttrAt_ne _ _ _ _ hP]
    rfl
  | tangent =>
    simp only [semanticBufferIndex] at hs
    have hP : g.mPositionBufferIndex ≠ some i := hne .position (by decide)
    have hN : g.mNormaBufferIndex ≠ some i := hne .normal (by decide)
    have hC : g.mColorBufferIndex ≠ some i := hne .color (by decide)
    have hX : g.mTexCoordBufferIndex ≠ some i := hne .texcoord (by decide)
    have hB : g.mBitangentBufferIndex ≠ some i := hne .bitangent (by decide)
    rw [bufferAt_appendAttrAt_ne _ _ _ _ hB, hs,
      bufferAt_appendAttrAt_self _ i _ (by simp [hp]) (by simpa using hi),
      bufferAt_appendAttrAt_ne _ _ _ _ hX, bufferAt_appendAttrAt_ne _ _ _ _ hC,
      bufferAt_appendAttrAt_ne _ _ _ _ hN, bufferAt_appendAttrAt_ne _ _ _ _ hP]
    rfl
  | bitangent =>
    simp only [semanticBufferIndex] at hs
    have hP : g.mPositionBufferIndex ≠ some i := hne .position (by decide)
    have hN : g.mNormaBufferIndex ≠ some i := hne .normal (by decide)
    have hC : g.mColorBufferIndex ≠ some i := hne .color (by decide)
    have hX : g.mTexCoordBufferIndex ≠ some i := hne .texcoord (by decide)
    have hT : g.mTangentBufferIndex ≠ some i := hne .tangent (by decide)
    rw [hs, bufferAt_appendAttrAt_self _ i _ (by simp [hp]) (by simpa using hi),
      bufferAt_appendAttrAt_ne _ _ _ _ hT, bufferAt_appendAttrAt_ne _ _ _ _ hX,
      bufferAt_appendAttrAt_ne _ _ _ _ hC, bufferAt_appendAttrAt_ne _ _ _ _ hN,
      bufferAt_appendAttrAt_ne _ _ _ _ hP]
    rfl
  | texcoord =>
    simp only [semanticBufferIndex] at hs
    have hP : g.mPositionBufferIndex ≠ some i := hne .position (by decide)
    have hN : g.mNormaBufferIndex ≠ some i := hne .normal (by decide)
    have hC : g.mColorBufferIndex ≠ some i := hne .color (by decide)
    have hT : g.mTangentBufferIndex ≠ some i := hne .tangent (by decide)
    have hB : g.mBitangentBufferIndex ≠ some i := hne .bitangent (by decide)
    rw [bufferAt_appendAttrAt_ne _ _ _ _ hB, bufferAt_appendAttrAt_ne _ _ _ _ hT, hs,
      bufferAt_appendAttrAt_self _ i _ (by simp [hp]) (by simpa using hi),
      bufferAt_appendAttrAt_ne _ _ _ _ hC, bufferAt_appendAttrAt_ne _ _ _ _ hN,
      bufferAt_appendAttrAt_ne _ _ _ _ hP]
    rfl

@[simp] theorem mCreateInfo_AppendVertexData (g : Geometry) (vtx : TriMeshVertexData) :
    (g.AppendVertexData vtx).1.mCreateInfo = g.mCreateInfo := by
  cases hl : g.mCreateInfo.vertexAttributeLayout <;>
    simp [AppendVertexData, hl, AppendPosition, AppendNormal, AppendColor, AppendTexCoord,
      AppendTangent, AppendBitangent]

@[simp] theorem mPositionBufferIndex_AppendVertexData (g : Geometry) (vtx : TriMeshVertexData) :
    (g.AppendVertexData vtx).1.mPositionBufferIndex = g.mPositionBufferIndex := by
  cases hl : g.mCreateInfo.vertexAttributeLayout <;>
    simp [AppendVertexData, hl, AppendPosition, AppendNormal, AppendColor, AppendTexCoord,
      AppendTangent, AppendBitangent, AppendVertexInterleaved]

@[simp] theorem semanticBufferIndex_AppendVertexData (g : Geometry) (vtx : TriMeshVertexData)
    (s : VertexSemantic) :
    (g.AppendVertexData vtx).1.semanticBufferIndex s = g.semanticBufferIndex s := by
  cases hl : g.mCreateInfo.vertexAttributeLayout <;> cases s <;>
    simp [AppendVertexData, hl, AppendPosition, AppendNormal, AppendColor, AppendTexCoord,
      AppendTangent, AppendBitangent, AppendVertexInterleaved, semanticBufferIndex]

@[simp] theorem length_mVertexBuffers_AppendVertexData (g : Geometry) (vtx : TriMeshVertexData) :
    (g.AppendVertexData vtx).1.mVertexBuffers.length = g.mVertexBuffers.length := by
  cases hl : g.mCreateInfo.vertexAttributeLayout <;>
    simp [AppendVertexData, hl, AppendPosition, AppendNormal, AppendColor, AppendTexCoord,
      AppendTangent, AppendBitangent]

theorem mElementSize_bufferAt_AppendVertexInterleaved (g : Geometry) (vtx : TriMeshVertexData)
    (j : Nat) : ((g.AppendVertexInterleaved vtx).1.bufferAt j).mElementSize =
    (g.bufferAt j).mElementSize := by
  rcases eq_or_ne 0 j with he | hne
  · subst he
    by_cases h0 : 0 < g.mVertexBuffers.length
    · simp [AppendVertexInterleaved, bufferAt, List.getElem?_set_self h0]
    · have hle : g.mVertexBuffers.length ≤ 0 := Nat.le_of_not_lt h0
      simp [AppendVertexInterleaved, bufferAt, List.set_eq_of_length_le hle]
  · simp [AppendVertexInterleaved, bufferAt, List.getElem?_set_ne hne]

theorem mElementSize_bufferAt_AppendVertexData (g : Geometry) (vtx : TriMeshVertexData)
    (j : Nat) : ((g.AppendVertexData vtx).1.bufferAt j).mElementSize =
    (g.bufferAt j).mElementSize := by
  cases hl : g.mCreateInfo.vertexAttributeLayout
  · simp [AppendVertexData, hl, mElementSize_bufferAt_AppendVertexInterleaved]
  · simp only [AppendVertexData, hl, AppendPosition, AppendNormal, AppendColor,
      AppendTexCoord, AppendTangent, AppendBitangent, mPositionBufferIndex_appendAttrAt,
      mNormaBufferIndex_appendAttrAt, mColorBufferIndex_appendAttrAt,
      mTexCoordBufferIndex_appendAttrAt, mTangentBufferIndex_appendAttrAt,
      mBitangentBufferIndex_appendAttrAt]
    rw [mElementSize_bufferAt_appendAttrAt, mElementSize_bufferAt_appendAttrAt,
      mElementSize_bufferAt_appendAttrAt, mElementSize_bufferAt_appendAttrAt,
      mElementSize_bufferAt_appendAttrAt, mElementSize_bufferAt_appendAttrAt]

/-- One whole-vertex append raises the vertex count by exactly one. -/
theorem GetVertexCount_AppendVertexData (g : Geometry) (vtx : TriMeshVertexData)
    (hwf : g.StreamWF) :
    (g.AppendVertexData vtx).1.GetVertexCount = g.GetVertexCount + 1 := by
  cases hl : g.mCreateInfo.vertexAttributeLayout with
  | interleaved =>
    obtain ⟨⟨_, hlen1, hsize, hnat⟩, hne⟩ := hwf.1 hl
    have h0 : 0 < g.mVertexBuffers.length := by omega
    have hbuf : (g.AppendVertexData vtx).1.bufferAt 0 =
        (g.bufferAt 0).Append (interleavedBytes g.binding0.attributes vtx) := by
      simp only [AppendVertexData, hl]
      exact bufferAt_AppendVertexInterleaved g vtx h0
    have hlenb : (interleavedBytes g.binding0.attributes vtx).length =
        (g.binding0.attributes.map fun a => a.format.size).sum :=
      length_interleavedBytes _ _ hnat
    rw [GetVertexCount, GetVertexCount, mCreateInfo_AppendVertexData, hl, hbuf,
      Buffer.GetElementCount_Append]
    · rw [hsize, hlenb]
    · rw [hlenb]
      exact sum_format_sizes_pos _ hne
  | planar =>
    obtain ⟨hwfp, hpos⟩ := hwf.2 hl
    obtain ⟨i, hs⟩ := Option.ne_none_iff_exists'.mp hpos
    have hs' : g.semanticBufferIndex .position = some i := hs
    have hr := hwfp.2.1 .position
    rw [hs'] at hr
    simp only [optAll] at hr
    obtain ⟨hi, hsize⟩ := hr
    have hbuf := bufferAt_AppendVertexData_planar g vtx .position i hwfp hs'
    simp only [GetVertexCount, mCreateInfo_AppendVertexData, hl,
      mPositionBufferIndex_AppendVertexData, hs]
    rw [hbuf, Buffer.GetElementCount_Append]
    · rw [hsize]
      simp [TriMeshVertexData.semanticBytes, naturalFormat, Format.size]
    · simp [TriMeshVertexData.semanticBytes]

/-- `AppendVertexData` returns the zero-based index of the vertex it
appended: the vertex count before the call. -/
theorem snd_AppendVertexData (g : Geometry) (vtx : TriMeshVertexData) (hwf : g.StreamWF) :
    (g.AppendVertexData vtx).2 = g.GetVertexCount := by
  cases hl : g.mCreateInfo.vertexAttributeLayout with
  | interleaved =>
    have hstep := GetVertexCount_AppendVertexData g vtx hwf
    have h2 : (g.AppendVertexData vtx).2 = (g.AppendVertexData vtx).1.GetVertexCount - 1 := by
      simp only [AppendVertexData, hl, AppendVertexInterleaved]
    rw [h2, hstep]
    omega
  | planar =>
    obtain ⟨hwfp, hpos⟩ := hwf.2 hl
    obtain ⟨i, hs⟩ := Option.ne_none_iff_exists'.mp hpos
    have hs' : g.semanticBufferIndex .position = some i := hs
    have hr := hwfp.2.1 .position
    rw [hs'] at hr
    simp only [optAll] at hr
    obtain ⟨hi, hsize⟩ := hr
    have hhit := bufferAt_appendAttrAt_self g i vtx.position.bytes hwfp.1 hi
    have hcount : ((g.appendAttrAt (some i) vtx.position.bytes).bufferAt i).GetElementCount =
        (g.bufferAt i).GetElementCount + 1 := by
      rw [hhit, Buffer.GetElementCount_Append]
      · rw [hsize]; simp [naturalFormat, Format.size]
      · simp
    simp only [AppendVertexData, hl, AppendPosition]
    rw [hs]
    simp only [mPositionBufferIndex_appendAttrAt, hs, hcount]
    simp only [GetVertexCount, hl, hs]
    omega

/-- `AppendVertexData` preserves the stream invariant. -/
theorem StreamWF_AppendVertexData (g : Geometry) (vtx : TriMeshVertexData)
    (hwf : g.StreamWF) : (g.AppendVertexData vtx).1.StreamWF := by
  constructor
  · intro hl
    rw [mCreateInfo_AppendVertexData] at hl
    obtain ⟨⟨_, hlen1, hsize, hnat⟩, hne⟩ := hwf.1 hl
    refine ⟨⟨by simpa using hl, by simpa using hlen1, ?_, ?_⟩, ?_⟩
    · rw [mElementSize_bufferAt_AppendVertexData]
      simpa [binding0] using hsize
    · simpa [binding0] using hnat
    · simpa [binding0] using hne
  · intro hl
    rw [mCreateInfo_AppendVertexData] at hl
    obtain ⟨⟨_, hrange, hinj⟩, hpos⟩ := hwf.2 hl
    refine ⟨⟨by simpa using hl, ?_, ?_⟩, by simpa using hpos⟩
    · intro s
      rw [semanticBufferIndex_AppendVertexData]
      have := hrange s
      cases hcase : g.semanticBufferIndex s with
      | none => simp [optAll]
      | some i =>
        rw [hcase] at this
        simp only [optAll] at this ⊢
        obtain ⟨h1, h2⟩ := this
        rw [length_mVertexBuffers_AppendVertexData, mElementSize_bufferAt_AppendVertexData]
        exact ⟨h1, h2⟩
    · intro s t hst
      rw [semanticBufferIndex_AppendVertexData]
      have := hinj s t hst
      cases hcase : g.semanticBufferIndex s with
      | none => simp [optAll]
      | some i =>
        rw [hcase] at this
        simp only [optAll] at this ⊢
        rw [semanticBufferIndex_AppendVertexData]
        exact this

theorem range_succ_map_add (n c : Nat) :
    (List.range (n + 1)).map (· + c) = c :: (List.range n).map (· + (c + 1)) := by
  rw [List.range_succ_eq_map, List.map_cons, List.map_map]
  refine congrArg₂ _ (Nat.zero_add c) ?_
  refine List.map_congr_left ?_
  intro x _
  simp [Function.comp]
  omega

/-- A sequence of whole-vertex appends: final count, preserved invariant,
and the returned indices, which count up from the starting vertex count. -/
theorem AppendVertexDataList_spec (vs : List TriMeshVertexData) (g : Geometry)
    (hwf : g.StreamWF) :
    (g.AppendVertexDataList vs).1.GetVertexCount = g.GetVertexCount + vs.length ∧
    (g.AppendVertexDataList vs).1.StreamWF ∧
    (g.AppendVertexDataList vs).2 = (List.range vs.length).map (· + g.GetVertexCount) := by
  induction vs generalizing g with
  | nil => simpa [AppendVertexDataList] using hwf
  | cons v vs ih =>
    obtain ⟨hc, hw, hr⟩ := ih (g.AppendVertexData v).1 (StreamWF_AppendVertexData g v hwf)
    have hstep := GetVertexCount_AppendVertexData g v hwf
    have hsnd := snd_AppendVertexData g v hwf
    refine ⟨?_, ?_, ?_⟩
    · simp only [AppendVertexDataList]
      rw [hc, hstep, List.length_cons]
      omega
    · simpa only [AppendVertexDataList] using hw
    · simp only [AppendVertexDataList, List.length_cons]
      rw [hr, hstep, hsnd, range_succ_map_add]

theorem appendIndex_undefined (g : Geometry) (v : Nat)
    (h : g.mCreateInfo.indexType = .undefined) : g.appendIndex v = g := by
  simp [appendIndex, h]

@[simp] theorem mCreateInfo_appendIndex (g : Geometry) (v : Nat) :
    (g.appendIndex v).mCreateInfo = g.mCreateInfo := by
  cases h : g.mCreateInfo.indexType <;> simp [appendIndex, h]

@[simp] theorem mVertexBuffers_appendIndex (g : Geometry) (v : Nat) :
    (g.appendIndex v).mVertexBuffers = g.mVertexBuffers := by
  cases h : g.mCreateInfo.indexType <;> simp [appendIndex, h]

@[simp] theorem mPositionBufferIndex_appendIndex (g : Geometry) (v : Nat) :
    (g.appendIndex v).mPositionBufferIndex = g.mPositionBufferIndex := by
  cases h : g.mCreateInfo.indexType <;> simp [appendIndex, h]

@[simp] theorem GetVertexCount_appendIndex (g : Geometry) (v : Nat) :
    (g.appendIndex v).GetVertexCount = g.GetVertexCount := by
  have hb : ∀ i, (g.appendIndex v).bufferAt i = g.bufferAt i := by
    intro i; rw [bufferAt, bufferAt, mVertexBuffers_appendIndex]
  simp only [GetVertexCount, mCreateInfo_appendIndex, mPositionBufferIndex_appendIndex, hb]

/-- Appending one index with a `UINT16` index type appends exactly the two
little-endian bytes of the value cast to `uint16_t`. -/
theorem mIndexBuffer_appendIndex_uint16 (g : Geometry) (v : Nat)
    (h : g.mCreateInfo.indexType = .uint16) :
    (g.appendIndex v).mIndexBuffer = g.mIndexBuffer.Append (bytesLE 2 (v % 2 ^ 16)) := by
  simp [appendIndex, h]


@[simp] theorem mCreateInfo_triangleFold (ts : List (Nat × Nat × Nat)) (g : Geometry) :
    (triangleFold g ts).mCreateInfo = g.mCreateInfo := by
  induction ts generalizing g with
  | nil => rfl
  | cons t ts ih =>
    simp only [triangleFold, List.foldl_cons]
    have hstep := ih (g.AppendIndicesTriangle t.1 t.2.1 t.2.2)
    simp only [triangleFold] at hstep
    rw [hstep]
    simp [AppendIndicesTriangle]

@[simp] theorem GetVertexCount_triangleFold (ts : List (Nat × Nat × Nat)) (g : Geometry) :
    (triangleFold g ts).GetVertexCount = g.GetVertexCount := by
  induction ts generalizing g with
  | nil => rfl
  | cons t ts ih =>
    simp only [triangleFold, List.foldl_cons]
    have hstep := ih (g.AppendIndicesTriangle t.1 t.2.1 t.2.2)
    simp only [triangleFold] at hstep
    rw [hstep]
    simp [AppendIndicesTriangle]

@[simp] theorem mCreateInfo_AppendVertexDataList (vs : List TriMeshVertexData) (g : Geometry) :
    (g.AppendVertexDataList vs).1.mCreateInfo = g.mCreateInfo := by
  induction vs generalizing g with
  | nil => rfl
  | cons v vs ih =>
    simp only [AppendVertexDataList]
    rw [ih, mCreateInfo_AppendVertexData]

/-- Shape of a successful mesh-derived construction: the populated builder
carries the synthesized descriptor and one vertex per mesh vertex. -/
theorem CreateFromTriMesh_ok (m : TriMesh)
    (hok : Geometry.Create m.deriveOptions = .ok (Geometry.initFromOptions m.deriveOptions))
    (hwf : (Geometry.initFromOptions m.deriveOptions).StreamWF)
    (h0 : (Geometry.initFromOptions m.deriveOptions).GetVertexCount = 0) :
    ∃ g, Geometry.CreateFromTriMesh m = .ok g ∧ g.mCreateInfo = m.deriveOptions ∧
      g.GetVertexCount = m.vertices.length := by
  obtain ⟨hcnt, hwf', hret⟩ :=
    AppendVertexDataList_spec m.vertices (Geometry.initFromOptions m.deriveOptions) hwf
  simp only [Geometry.CreateFromTriMesh, hok]
  refine ⟨_, rfl, ?_, ?_⟩
  · show (triangleFold _ m.triangles).mCreateInfo = m.deriveOptions
    rw [mCreateInfo_triangleFold, mCreateInfo_AppendVertexDataList]
    rfl
  · show (triangleFold _ m.triangles).GetVertexCount = m.vertices.length
    rw [GetVertexCount_triangleFold, hcnt, h0, Nat.zero_add]

end Geometry

namespace Geometry

/-- Interleaved whole-vertex append: buffer 0 gains exactly the
concatenated element. -/
theorem bufferAt0_AppendVertexData_interleaved (g : Geometry) (vtx : TriMeshVertexData)
    (hwf : g.InterleavedWF) :
    (g.AppendVertexData vtx).1.bufferAt 0 =
      (g.bufferAt 0).Append (interleavedBytes g.binding0.attributes vtx) := by
  obtain ⟨hl, hlen1, _, _⟩ := hwf
  simp only [AppendVertexData, hl]
  exact bufferAt_AppendVertexInterleaved g vtx (by omega)

/-- Interleaved whole-vertex append: buffer 0's element count rises by
exactly one. -/
theorem GetElementCount_AppendVertexData_interleaved (g : Geometry) (vtx : TriMeshVertexData)
    (hwf : g.InterleavedWF) (hne : g.binding0.attributes ≠ []) :
    ((g.AppendVertexData vtx).1.bufferAt 0).GetElementCount
      = (g.bufferAt 0).GetElementCount + 1 := by
  obtain ⟨hl, hlen1, hsize, hnat⟩ := hwf
  have hlenb := length_interleavedBytes g.binding0.attributes vtx hnat
  rw [bufferAt0_AppendVertexData_interleaved g vtx ⟨hl, hlen1, hsize, hnat⟩,
    Buffer.GetElementCount_Append]
  · rw [hsize, hlenb]
  · rw [hlenb]
    exact sum_format_sizes_pos _ hne

/-- Planar whole-vertex append: a declared semantic's dedicated buffer's
element count rises by exactly one. -/
theorem GetElementCount_AppendVertexData_planar (g : Geometry) (vtx : TriMeshVertexData)
    (hwf : g.PlanarWF) (s : VertexSemantic) (i : Nat)
    (hs : g.semanticBufferIndex s = some i) :
    ((g.AppendVertexData vtx).1.bufferAt i).GetElementCount
      = (g.bufferAt i).GetElementCount + 1 := by
  have hr := hwf.2.1 s
  rw [hs] at hr
  simp only [optAll] at hr
  obtain ⟨hi, hsize⟩ := hr
  rw [bufferAt_AppendVertexData_planar g vtx s i hwf hs, Buffer.GetElementCount_Append]
  · rw [hsize, TriMeshVertexData.length_semanticBytes]
  · rw [TriMeshVertexData.length_semanticBytes]
    exact Format.size_pos _

end Geometry

/-- Claim C1: for an interleaved builder, every `AppendVertexData` call
raises the single vertex buffer's element count by exactly 1, and the
appended element's bytes are the concatenation of the declared attributes'
bytes in declaration order, occupying exactly the sum of the formats'
natural sizes (no padding). -/
theorem claim_C1_interleaved_append (g : Geometry) (vtx : TriMeshVertexData)
    (hwf : g.InterleavedWF) (hne : g.binding0.attributes ≠ []) :
    ((g.AppendVertexData vtx).1.bufferAt 0).GetElementCount
      = (g.bufferAt 0).GetElementCount + 1 ∧
    ((g.AppendVertexData vtx).1.bufferAt 0).mData
      = (g.bufferAt 0).mData ++ Geometry.interleavedBytes g.binding0.attributes vtx ∧
    (Geometry.interleavedBytes g.binding0.attributes vtx).length
      = (g.binding0.attributes.map fun a => (naturalFormat a.semantic).size).sum := by
  refine ⟨Geometry.GetElementCount_AppendVertexData_interleaved g vtx hwf hne, ?_, ?_⟩
  · rw [Geometry.bufferAt0_AppendVertexData_interleaved g vtx hwf]
    rfl
  · rw [Geometry.length_interleavedBytes g.binding0.attributes vtx hwf.2.2.2]
    refine congrArg _ (List.map_congr_left ?_)
    intro a ha
    rw [hwf.2.2.2 a ha]

theorem claim_C1_witness :
    ((geoI.AppendVertexData vtxA).1.bufferAt 0).GetElementCount
      = (geoI.bufferAt 0).GetElementCount + 1 :=
  (claim_C1_interleaved_append geoI vtxA (by decide) (by decide)).1

/-- Claim C2: whole-vertex appends keep all vertex buffers in lock-step —
in planar mode every declared semantic's dedicated buffer gains exactly one
element, and in interleaved mode the single buffer gains exactly one
element. -/
theorem claim_C2_lockstep (g : Geometry) (vtx : TriMeshVertexData) :
    (g.PlanarWF → ∀ s : VertexSemantic, ∀ i : Nat, g.semanticBufferIndex s = some i →
      ((g.AppendVertexData vtx).1.bufferAt i).GetElementCount
        = (g.bufferAt i).GetElementCount + 1) ∧
    (g.InterleavedWF → g.binding0.attributes ≠ [] →
      ((g.AppendVertexData vtx).1.bufferAt 0).GetElementCount
        = (g.bufferAt 0).GetElementCount + 1) := by
  constructor
  · intro hwf s i hs
    exact Geometry.GetElementCount_AppendVertexData_planar g vtx hwf s i hs
  · intro hwf hne
    exact Geometry.GetElementCount_AppendVertexData_interleaved g vtx hwf hne

theorem claim_C2_witness :
    ((geoP.AppendVertexData vtxA).1.bufferAt 0).GetElementCount
        = (geoP.bufferAt 0).GetElementCount + 1 ∧
    ((geoP.AppendVertexData vtxA).1.bufferAt 1).GetElementCount
        = (geoP.bufferAt 1).GetElementCount + 1 :=
  ⟨(claim_C2_lockstep geoP vtxA).1 (by decide) .position 0 (by decide),
   (claim_C2_lockstep geoP vtxA).1 (by decide) .texcoord 1 (by decide)⟩

/-- Claim C3: starting from an empty builder, the `k`-th `AppendVertexData`
call (0-indexed) returns `k`. -/
theorem claim_C3_returns (g : Geometry) (vs : List TriMeshVertexData)
    (hwf : g.StreamWF) (h0 : g.GetVertexCount = 0) :
    (g.AppendVertexDataList vs).2 = List.range vs.length := by
  obtain ⟨-, -, hret⟩ := Geometry.AppendVertexDataList_spec vs g hwf
  rw [hret, h0]
  simp

theorem claim_C3_witness :
    (geoI.AppendVertexDataList [vtxA, vtxA, vtxA]).2 = List.range 3 :=
  claim_C3_returns geoI [vtxA, vtxA, vtxA] (by decide) (by decide)

namespace Geometry

/-- `appendAttrAt` is the identity unless the layout is planar and the slot
is recorded. -/
theorem appendAttrAt_noop (g : Geometry) (oi : Option Nat) (bytes : List Nat)
    (h : g.mCreateInfo.vertexAttributeLayout ≠ .planar ∨ oi = none) :
    g.appendAttrAt oi bytes = g := by
  unfold appendAttrAt
  split
  · next hp =>
    rcases h with h | h
    · exact absurd hp h
    · rw [h]
  · rfl

theorem interleaved_ne_planar (L : GeometryVertexAttributeLayout)
    (h : L = .interleaved) : L ≠ .planar := by
  rw [h]
  decide

end Geometry

/-- Claim C4: every single-attribute appender is a silent no-op — leaving
the whole builder unchanged — whenever the layout is interleaved or the
semantic has no recorded buffer (was not declared); these operations return
no error value at all. -/
theorem claim_C4_single_attr_noop (g : Geometry) (v3 : float3) (v2 : float2) (v4 : float4) :
    ((g.mCreateInfo.vertexAttributeLayout = .interleaved ∨ g.mPositionBufferIndex = none) →
      (g.AppendPosition v3).1 = g) ∧
    ((g.mCreateInfo.vertexAttributeLayout = .interleaved ∨ g.mNormaBufferIndex = none) →
      g.AppendNormal v3 = g) ∧
    ((g.mCreateInfo.vertexAttributeLayout = .interleaved ∨ g.mColorBufferIndex = none) →
      g.AppendColor v3 = g) ∧
    ((g.mCreateInfo.vertexAttributeLayout = .interleaved ∨ g.mTexCoordBufferIndex = none) →
      g.AppendTexCoord v2 = g) ∧
    ((g.mCreateInfo.vertexAttributeLayout = .interleaved ∨ g.mTangentBufferIndex = none) →
      g.AppendTangent v4 = g) ∧
    ((g.mCreateInfo.vertexAttributeLayout = .interleaved ∨ g.mBitangentBufferIndex = none) →
      g.AppendBitangent v3 = g) := by
  refine ⟨fun h => ?_, fun h => ?_, fun h => ?_, fun h => ?_, fun h => ?_, fun h => ?_⟩ <;>
    exact Geometry.appendAttrAt_noop _ _ _ (h.imp (Geometry.interleaved_ne_planar _) id)

theorem claim_C4_witness :
    (geoI.AppendPosition (1, 2, 3)).1 = geoI ∧ geoI.AppendColor (4, 5, 6) = geoI ∧
    geoP.AppendColor (4, 5, 6) = geoP :=
  ⟨(claim_C4_single_attr_noop geoI (1, 2, 3) (0, 0) (0, 0, 0, 0)).1 (Or.inl (by decide)),
   (claim_C4_single_attr_noop geoI (4, 5, 6) (0, 0) (0, 0, 0, 0)).2.2.1 (Or.inl (by decide)),
   (claim_C4_single_attr_noop geoP (4, 5, 6) (0, 0) (0, 0, 0, 0)).2.2.1 (Or.inr (by decide))⟩

/-- Claim C5: with `indexType` `UNDEFINED`, any sequence of triangle and
edge index appends leaves the builder untouched; in particular an index
buffer whose element count is 0 stays at 0. -/
theorem claim_C5_undefined_noop (g : Geometry) (ops : List IndexOp)
    (h : g.mCreateInfo.indexType = .undefined) :
    g.applyIndexOps ops = g ∧
    (g.mIndexBuffer.GetElementCount = 0 →
      (g.applyIndexOps ops).mIndexBuffer.GetElementCount = 0) := by
  have hop : ∀ op, g.applyIndexOp op = g := by
    intro op
    cases op <;>
      simp [Geometry.applyIndexOp, Geometry.AppendIndicesTriangle, Geometry.AppendIndicesEdge,
        Geometry.appendIndex_undefined _ _ h]
  have hmain : g.applyIndexOps ops = g := by
    induction ops with
    | nil => rfl
    | cons op ops ih =>
      simp only [Geometry.applyIndexOps, List.foldl_cons, hop]
      exact ih
  exact ⟨hmain, fun h0 => by rw [hmain]; exact h0⟩

theorem claim_C5_witness :
    Geometry.applyIndexOps geoU [IndexOp.tri 1 2 3, IndexOp.edge 4 5, IndexOp.tri 7 8 9] = geoU :=
  (claim_C5_undefined_noop geoU [IndexOp.tri 1 2 3, IndexOp.edge 4 5, IndexOp.tri 7 8 9]
    (by decide)).1

/-- Claim C6: with a `UINT16` index type, `AppendIndicesTriangle` appends
exactly three 2-byte elements carrying the three argument values in order,
and the 16-bit narrowing is lossless for values at most 65535. -/
theorem claim_C6_uint16_lossless (g : Geometry) (v0 v1 v2 : Nat)
    (hty : g.mCreateInfo.indexType = .uint16)
    (hes : g.mIndexBuffer.mElementSize = 2)
    (h0 : v0 ≤ 65535) (h1 : v1 ≤ 65535) (h2 : v2 ≤ 65535) :
    (g.AppendIndicesTriangle v0 v1 v2).mIndexBuffer.mData
      = g.mIndexBuffer.mData ++ bytesLE 2 v0 ++ bytesLE 2 v1 ++ bytesLE 2 v2 ∧
    (g.AppendIndicesTriangle v0 v1 v2).mIndexBuffer.GetElementCount
      = g.mIndexBuffer.GetElementCount + 3 ∧
    (bytesLE 2 v0).length = 2 ∧ (bytesLE 2 v1).length = 2 ∧ (bytesLE 2 v2).length = 2 ∧
    decodeLE (bytesLE 2 v0) = v0 ∧ decodeLE (bytesLE 2 v1) = v1 ∧
    decodeLE (bytesLE 2 v2) = v2 := by
  have hm0 : v0 % 2 ^ 16 = v0 := Nat.mod_eq_of_lt (by omega)
  have hm1 : v1 % 2 ^ 16 = v1 := Nat.mod_eq_of_lt (by omega)
  have hm2 : v2 % 2 ^ 16 = v2 := Nat.mod_eq_of_lt (by omega)
  have hdata : (g.AppendIndicesTriangle v0 v1 v2).mIndexBuffer.mData
      = g.mIndexBuffer.mData ++ bytesLE 2 v0 ++ bytesLE 2 v1 ++ bytesLE 2 v2 := by
    rw [Geometry.AppendIndicesTriangle,
      Geometry.mIndexBuffer_appendIndex_uint16 _ v2 (by simp [hty]),
      Geometry.mIndexBuffer_appendIndex_uint16 _ v1 (by simp [hty]),
      Geometry.mIndexBuffer_appendIndex_uint16 _ v0 hty,
      hm0, hm1, hm2]
    simp [Buffer.Append, List.append_assoc]
  have hsize : (g.AppendIndicesTriangle v0 v1 v2).mIndexBuffer.mElementSize = 2 := by
    rw [Geometry.AppendIndicesTriangle,
      Geometry.mIndexBuffer_appendIndex_uint16 _ v2 (by simp [hty]),
      Geometry.mIndexBuffer_appendIndex_uint16 _ v1 (by simp [hty]),
      Geometry.mIndexBuffer_appendIndex_uint16 _ v0 hty]
    simpa using hes
  refine ⟨hdata, ?_, by simp, by simp, by simp, decodeLE_bytesLE 2 v0 (by omega),
    decodeLE_bytesLE 2 v1 (by omega), decodeLE_bytesLE 2 v2 (by omega)⟩
  rw [Buffer.GetElementCount, Buffer.GetElementCount, Buffer.GetSize, Buffer.GetSize,
    hdata, hsize, hes]
  simp only [List.length_append, length_bytesLE]
  omega

/-- Builder with a 16-bit index type, for the C6 witness. -/
theorem claim_C6_witness :
    (geoI.AppendIndicesTriangle 7 65535 0).mIndexBuffer.mData
        = bytesLE 2 7 ++ bytesLE 2 65535 ++ bytesLE 2 0 ∧
    (geoI.AppendIndicesTriangle 7 65535 0).mIndexBuffer.GetElementCount = 3 :=
  have h := claim_C6_uint16_lossless geoI 7 65535 0 (by decide) (by decide) (by decide)
    (by decide) (by decide)
  ⟨by simpa using h.1, by simpa using h.2.1⟩

/-- Claim C7: `Create` reports a failure result — and, the construction
being all-or-nothing, yields no geometry for the caller to observe — when
the topology is not a triangle list or the binding configuration is
inconsistent. -/
theorem claim_C7_create_fails (ci : GeometryOptions)
    (h : ci.primtiveTopology ≠ .triangleList ∨ ¬ ci.consistentBindings) :
    ∃ e, Geometry.Create ci = .error e := by
  unfold Geometry.Create
  by_cases ht : ci.primtiveTopology = .triangleList
  · rcases h with h | h
    · exact absurd ht h
    · rw [if_pos ht, if_neg h]
      exact ⟨_, rfl⟩
  · rw [if_neg ht]
    exact ⟨_, rfl⟩

theorem claim_C7_witness :
    ∃ e, Geometry.Create ({ primtiveTopology := .pointList } : GeometryOptions) = .error e :=
  claim_C7_create_fails _ (Or.inl (by decide))


theorem AddAttribute_interleaved_eq (o : GeometryOptions) (s : VertexSemantic) (f : Format)
    (hl : o.vertexAttributeLayout = .interleaved) :
    o.AddAttribute s f =
      { o with
        vertexBindings := [⟨o.binding0.attributes ++ [⟨s, f, o.binding0.stride⟩],
          o.binding0.stride + f.size⟩]
        vertexBindingCount := 1 } := by
  unfold GeometryOptions.AddAttribute
  rw [hl]

theorem InterleavedGood_AddAttribute (o : GeometryOptions) (s : VertexSemantic)
    (h : o.InterleavedGood) : (o.AddAttribute s (naturalFormat s)).InterleavedGood := by
  obtain ⟨hl, hstride, hnat⟩ := h
  have heq := AddAttribute_interleaved_eq o s (naturalFormat s) hl
  have hb : (o.AddAttribute s (naturalFormat s)).binding0 =
      ⟨o.binding0.attributes ++ [⟨s, naturalFormat s, o.binding0.stride⟩],
        o.binding0.stride + (naturalFormat s).size⟩ := by
    rw [heq]
    rfl
  have hlay : (o.AddAttribute s (naturalFormat s)).vertexAttributeLayout = .interleaved := by
    rw [heq]
    exact hl
  refine ⟨hlay, ?_, ?_⟩
  · rw [hb]
    simp [List.sum_append, hstride]
  · rw [hb]
    intro a ha
    rcases List.mem_append.mp ha with ha | ha
    · exact hnat a ha
    · simp only [List.mem_singleton] at ha
      subst ha
      rfl

theorem binding0_attributes_ne_nil_AddAttribute (o : GeometryOptions) (s : VertexSemantic)
    (f : Format) (hl : o.vertexAttributeLayout = .interleaved) :
    (o.AddAttribute s f).binding0.attributes ≠ [] := by
  rw [AddAttribute_interleaved_eq o s f hl]
  simp [GeometryOptions.binding0]

theorem interleavedGoodStep (b : Bool) (o : GeometryOptions) (s : VertexSemantic)
    (h : o.InterleavedGood ∧ o.binding0.attributes ≠ []) :
    (if b then o.AddAttribute s (naturalFormat s) else o).InterleavedGood ∧
    (if b then o.AddAttribute s (naturalFormat s) else o).binding0.attributes ≠ [] := by
  cases b
  · simpa using h
  · simpa using ⟨InterleavedGood_AddAttribute o s h.1,
      binding0_attributes_ne_nil_AddAttribute o s _ h.1.1⟩

/-- The descriptor synthesized from any mesh is a well-formed interleaved
descriptor with at least one attribute. -/
theorem deriveOptions_good (m : TriMesh) :
    m.deriveOptions.InterleavedGood ∧ m.deriveOptions.binding0.attributes ≠ [] := by
  have hbase : ({ indexType := if m.vertices.length ≤ 65536 then IndexType.uint16
      else IndexType.uint32 } : GeometryOptions).InterleavedGood :=
    ⟨rfl, rfl, fun a ha =>
      absurd (show a ∈ ([] : List VertexAttribute) from ha) (List.not_mem_nil a)⟩
  have h1 : (({ indexType := if m.vertices.length ≤ 65536 then IndexType.uint16
        else IndexType.uint32 } : GeometryOptions).AddPosition).InterleavedGood ∧
      (({ indexType := if m.vertices.length ≤ 65536 then IndexType.uint16
        else IndexType.uint32 } : GeometryOptions).AddPosition).binding0.attributes ≠ [] :=
    ⟨InterleavedGood_AddAttribute _ .position hbase,
     binding0_attributes_ne_nil_AddAttribute _ _ _ rfl⟩
  simp only [TriMesh.deriveOptions]
  exact interleavedGoodStep _ _ .texcoord (interleavedGoodStep _ _ .bitangent
    (interleavedGoodStep _ _ .tangent (interleavedGoodStep _ _ .color
      (interleavedGoodStep _ _ .normal h1))))

namespace Geometry

theorem mData_eq_nil_of_mem_initFromOptions (ci : GeometryOptions) (b : Buffer)
    (hb : b ∈ (Geometry.initFromOptions ci).mVertexBuffers) : b.mData = [] := by
  have hb' : b ∈ (match ci.vertexAttributeLayout with
      | GeometryVertexAttributeLayout.interleaved =>
        [{ mType := .vertex, mElementSize := ci.binding0.stride, mData := [] }]
      | GeometryVertexAttributeLayout.planar =>
        ci.vertexBindings.map fun bd =>
          { mType := .vertex, mElementSize := bd.stride, mData := [] } : List Buffer) := hb
  cases hl : ci.vertexAttributeLayout <;> rw [hl] at hb'
  · simp only [List.mem_singleton] at hb'
    rw [hb']
  · rcases List.mem_map.mp hb' with ⟨x, _, hx⟩
    rw [← hx]

theorem GetElementCount_bufferAt_initFromOptions (ci : GeometryOptions) (i : Nat) :
    ((Geometry.initFromOptions ci).bufferAt i).GetElementCount = 0 := by
  rw [Buffer.GetElementCount, Buffer.GetSize, bufferAt, List.getD_eq_getElem?_getD]
  cases hc : (Geometry.initFromOptions ci).mVertexBuffers[i]? with
  | none => simp
  | some b =>
    have hnil := mData_eq_nil_of_mem_initFromOptions ci b (List.getElem?_mem hc)
    simp [hnil]

/-- A freshly constructed builder holds no vertices. -/
theorem GetVertexCount_initFromOptions (ci : GeometryOptions) :
    (Geometry.initFromOptions ci).GetVertexCount = 0 := by
  unfold GetVertexCount
  cases (Geometry.initFromOptions ci).mCreateInfo.vertexAttributeLayout
  · exact GetElementCount_bufferAt_initFromOptions ci 0
  · cases (Geometry.initFromOptions ci).mPositionBufferIndex with
    | none => rfl
    | some i => exact GetElementCount_bufferAt_initFromOptions ci i

/-- A well-formed interleaved descriptor with at least one attribute yields
a builder satisfying the stream invariant. -/
theorem StreamWF_initFromOptions_of (ci : GeometryOptions) (hg : ci.InterleavedGood)
    (hne : ci.binding0.attributes ≠ []) : (Geometry.initFromOptions ci).StreamWF := by
  obtain ⟨hl, hstride, hnat⟩ := hg
  constructor
  · intro _
    refine ⟨⟨hl, ?_, ?_, ?_⟩, ?_⟩
    · show (Geometry.initFromOptions ci).mVertexBuffers.length = 1
      unfold initFromOptions
      simp only
      rw [hl]
      rfl
    · show ((Geometry.initFromOptions ci).bufferAt 0).mElementSize = _
      have hbuf : (Geometry.initFromOptions ci).bufferAt 0 =
          { mType := .vertex, mElementSize := ci.binding0.stride, mData := [] } := by
        unfold initFromOptions bufferAt
        simp only
        rw [hl]
        rfl
      rw [hbuf]
      exact hstride
    · exact hnat
    · exact hne
  · intro hpl
    have : ci.vertexAttributeLayout = .planar := hpl
    rw [hl] at this
    exact absurd this (by decide)

end Geometry

/-- Claim C8: constructing from a triangle mesh alone synthesizes a
descriptor declaring exactly the attributes present in the mesh, in the
canonical order position, normal, color, tangent, bitangent, texcoord,
interleaved, with a 16-bit index when the vertex count fits in 16 bits,
and populates the builder with one vertex per mesh vertex. -/
theorem claim_C8_mesh_derived (m : TriMesh) :
    m.deriveOptions.declaredSemantics =
      [VertexSemantic.position]
        ++ (if m.hasNormals then [VertexSemantic.normal] else [])
        ++ (if m.hasColors then [VertexSemantic.color] else [])
        ++ (if m.hasTangents then [VertexSemantic.tangent] else [])
        ++ (if m.hasBitangents then [VertexSemantic.bitangent] else [])
        ++ (if m.hasTexCoords then [VertexSemantic.texcoord] else []) ∧
    m.deriveOptions.vertexAttributeLayout = .interleaved ∧
    m.deriveOptions.indexType
      = (if m.vertices.length ≤ 65536 then IndexType.uint16 else IndexType.uint32) ∧
    ∃ g, Geometry.CreateFromTriMesh m = .ok g ∧ g.mCreateInfo = m.deriveOptions ∧
      g.GetVertexCount = m.vertices.length := by
  have hmain : ∀ m' : TriMesh, ∃ g, Geometry.CreateFromTriMesh m' = .ok g ∧
      g.mCreateInfo = m'.deriveOptions ∧ g.GetVertexCount = m'.vertices.length := by
    intro m'
    refine Geometry.CreateFromTriMesh_ok m' ?_
      (Geometry.StreamWF_initFromOptions_of _ (deriveOptions_good m').1
        (deriveOptions_good m').2)
      (Geometry.GetVertexCount_initFromOptions _)
    obtain ⟨hc, hn, ht, hb, htc, verts, tris⟩ := m'
    cases hc <;> cases hn <;> cases ht <;> cases hb <;> cases htc <;> exact rfl
  obtain ⟨hc, hn, ht, hb, htc, verts, tris⟩ := m
  cases hc <;> cases hn <;> cases ht <;> cases hb <;> cases htc <;>
    exact ⟨rfl, rfl, rfl, hmain _⟩

/-- Claim C9: `Buffer::Append` grows the buffer by exactly the value's byte
size, leaves all previously stored bytes unchanged at their offsets, and
places the value's bytes at the previous end of the buffer. -/
theorem claim_C9_buffer_append (b : Buffer) (bytes : List Nat) :
    (b.Append bytes).GetSize = b.GetSize + bytes.length ∧
    (b.Append bytes).mData.take b.GetSize = b.mData ∧
    (b.Append bytes).mData.drop b.GetSize = bytes := by
  refine ⟨?_, ?_, ?_⟩
  · simp [Buffer.Append, Buffer.GetSize]
  · rw [Buffer.mData_Append, Buffer.GetSize, List.take_left]
  · rw [Buffer.mData_Append, Buffer.GetSize, List.drop_left]

/-- Claim C10: a default-constructed `GeometryOptions` has no index data,
interleaved layout, zero vertex bindings, and triangle-list topology. -/
theorem claim_C10_default_options :
    ({} : GeometryOptions).indexType = .undefined ∧
    ({} : GeometryOptions).vertexAttributeLayout = .interleaved ∧
    ({} : GeometryOptions).vertexBindingCount = 0 ∧
    ({} : GeometryOptions).vertexBindings = [] ∧
    ({} : GeometryOptions).primtiveTopology = .triangleList :=
  ⟨rfl, rfl, rfl, rfl, rfl⟩

end ppx
